import Mathlib

/-!
Verification of the UI hierarchy analysis core (ui-parser module):
hierarchy parsers, query engine, fuzzy matcher, screen classifier and
element differ.  JavaScript strings are modelled as `List Char` (ASCII
semantics for case conversion), JavaScript numbers as exact integers
(`Nat` for parsed digit runs, `Int` for derived pixel arithmetic), and
the regular expressions of the source as explicit leftmost-match
scanning functions over character lists.
-/

namespace UiCore

/-! ## Character-list helpers modelling JavaScript string operations -/

/-- ASCII lower-casing of one character, modelling `toLowerCase` on the
ASCII range. -/
def lowerChar (c : Char) : Char :=
  if 64 < c.toNat ∧ c.toNat < 91 then Char.ofNat (c.toNat + 32) else c

/-- `s.toLowerCase()` on a character list. -/
def lowerL (s : List Char) : List Char := s.map lowerChar

/-- Whitespace recognised by `trim`. -/
def isWs (c : Char) : Bool := c == ' ' || c == '\t' || c == '\n' || c == '\r'

/-- `s.trim()`: strip leading and trailing whitespace. -/
def trimL (s : List Char) : List Char :=
  ((s.dropWhile isWs).reverse.dropWhile isWs).reverse

/-- Does the list start with the given pattern? (`startsWith`). -/
def startsWithL : List Char → List Char → Bool
  | _, [] => true
  | [], _ :: _ => false
  | a :: as, b :: bs => a == b && startsWithL as bs

/-- `haystack.includes(needle)`: substring containment
(the empty needle is contained in everything, as in JavaScript). -/
def containsL : List Char → List Char → Bool
  | [], p => p.isEmpty
  | c :: cs, p => startsWithL (c :: cs) p || containsL cs p

/-- `s.split(sep)` for a one-character separator; like JavaScript it
produces empty pieces between adjacent separators and `[""]` on `""`. -/
def splitOnCharL (sep : Char) : List Char → List (List Char)
  | [] => [[]]
  | c :: cs =>
    if c == sep then [] :: splitOnCharL sep cs
    else
      match splitOnCharL sep cs with
      | [] => [[c]]
      | g :: gs => (c :: g) :: gs

/-- Characters of `s` before the first occurrence of `sep` as a prefix
of a suffix; the whole list when `sep` never occurs. -/
def takeUntilSep (sep : List Char) : List Char → List Char
  | [] => []
  | c :: cs => if startsWithL (c :: cs) sep then [] else c :: takeUntilSep sep cs

/-- Suffix of `s` after the last occurrence of `sep`; the whole list
when `sep` does not occur.  This models `s.split(sep).pop()`. -/
def afterLast (sep : List Char) (s : List Char) : List Char :=
  (takeUntilSep sep.reverse s.reverse).reverse

/-- Split the list at the first occurrence of the character `ch`,
returning the pieces before and after it. -/
def splitAtChar (ch : Char) : List Char → Option (List Char × List Char)
  | [] => none
  | c :: cs =>
    if c == ch then some ([], cs)
    else
      match splitAtChar ch cs with
      | some (a, b) => some (c :: a, b)
      | none => none

/-- Strip a literal pattern from the front of the list. -/
def stripLit (pat s : List Char) : Option (List Char) :=
  if startsWithL s pat then some (s.drop pat.length) else none

/-- Value of a digit run, as computed by `parseInt` on a `\d+` capture
(exact integer semantics). -/
def digitsToNat (d : List Char) : Nat :=
  d.foldl (fun n c => n * 10 + (c.toNat - 48)) 0

/-- Read a nonempty `\d+` run from the front of the list. -/
def readDigits (s : List Char) : Option (Nat × List Char) :=
  let d := s.takeWhile Char.isDigit
  if d.isEmpty then none else some (digitsToNat d, s.drop d.length)

/-- Leftmost match of the regular expression `attr="([^"]*)"` built from
an attribute pattern `pat = attr ++ "=\""`: returns the capture, or
`none` when there is no match (a match needs a closing quote). -/
def attrMatchScan (pat : List Char) : List Char → Option (List Char)
  | [] => none
  | c :: cs =>
    if startsWithL (c :: cs) pat then
      match splitAtChar '"' (List.drop (pat.length - 1) cs) with
      | some (val, _) => some val
      | none => attrMatchScan pat cs
    else attrMatchScan pat cs

/-! ## Data model -/

structure Bounds where
  x1 : Int
  y1 : Int
  x2 : Int
  y2 : Int
deriving DecidableEq, Repr, Inhabited

structure UiElement where
  index : Nat
  resourceId : String
  className : String
  packageName : String
  text : String
  contentDesc : String
  checkable : Bool
  checked : Bool
  clickable : Bool
  enabled : Bool
  focusable : Bool
  focused : Bool
  scrollable : Bool
  longClickable : Bool
  password : Bool
  selected : Bool
  bounds : Bounds
  centerX : Int
  centerY : Int
  width : Int
  height : Int
deriving DecidableEq, Repr, Inhabited

/-! ## Hierarchy parser for attributed markup (`parseUiHierarchy`) -/

/-- `extractAttr(nodeStr, attrName)`: first match of `attrName="([^"]*)"`
in the node string, or `""` when absent (`match?.[1] ?? ""`). -/
def extractAttr (nodeStr : List Char) (attrName : String) : String :=
  ⟨(attrMatchScan (attrName.data ++ ('=' :: '"' :: [])) nodeStr).getD []⟩

/-- Try to match `bounds="\[(\d+),(\d+)\]\[(\d+),(\d+)\]"` at the head of
the list. -/
def tryBoundsAt (s : List Char) : Option (Nat × Nat × Nat × Nat) := do
  let s ← stripLit "bounds=\"[".data s
  let (x1, s) ← readDigits s
  let s ← stripLit [','] s
  let (y1, s) ← readDigits s
  let s ← stripLit "][".data s
  let (x2, s) ← readDigits s
  let s ← stripLit [','] s
  let (y2, s) ← readDigits s
  let _ ← stripLit [']', '"'] s
  some (x1, y1, x2, y2)

/-- Leftmost match of the bounds regular expression in a node string. -/
def matchBounds : List Char → Option (Nat × Nat × Nat × Nat)
  | [] => none
  | c :: cs =>
    match tryBoundsAt (c :: cs) with
    | some r => some r
    | none => matchBounds cs

/-- Matches of `/<node[^>]+>/g`: each match runs from an occurrence of
`<node` through at least one non-`>` character to the next `>`; scanning
resumes after the consumed match, exactly as `exec` with a global
regular expression.  The fuel argument makes the recursion structural;
`scanNodes` supplies one unit of fuel per input character, which bounds
the number of scanning steps. -/
def scanNodesF : Nat → List Char → List (List Char)
  | 0, _ => []
  | _ + 1, [] => []
  | fuel + 1, c :: cs =>
    if startsWithL (c :: cs) "<node".data then
      match splitAtChar '>' (List.drop 4 cs) with
      | some (body, rest) =>
        if body.isEmpty then scanNodesF fuel cs
        else ("<node".data ++ body ++ ['>']) :: scanNodesF fuel rest
      | none => scanNodesF fuel cs
    else scanNodesF fuel cs

def scanNodes (xml : List Char) : List (List Char) :=
  scanNodesF xml.length xml

/-- Build the element emitted for one matched node string.
`Math.floor` on the nonnegative half-sum of the parsed coordinates is
natural-number division. -/
def mkNodeElement (idx : Nat) (nodeStr : List Char)
    (x1 y1 x2 y2 : Nat) : UiElement :=
  { index := idx
    resourceId := extractAttr nodeStr "resource-id"
    className := extractAttr nodeStr "class"
    packageName := extractAttr nodeStr "package"
    text := extractAttr nodeStr "text"
    contentDesc := extractAttr nodeStr "content-desc"
    checkable := extractAttr nodeStr "checkable" == "true"
    checked := extractAttr nodeStr "checked" == "true"
    clickable := extractAttr nodeStr "clickable" == "true"
    enabled := extractAttr nodeStr "enabled" == "true"
    focusable := extractAttr nodeStr "focusable" == "true"
    focused := extractAttr nodeStr "focused" == "true"
    scrollable := extractAttr nodeStr "scrollable" == "true"
    longClickable := extractAttr nodeStr "long-clickable" == "true"
    password := extractAttr nodeStr "password" == "true"
    selected := extractAttr nodeStr "selected" == "true"
    bounds := ⟨(x1 : Int), (y1 : Int), (x2 : Int), (y2 : Int)⟩
    centerX := (((x1 + x2) / 2 : Nat) : Int)
    centerY := (((y1 + y2) / 2 : Nat) : Int)
    width := (x2 : Int) - (x1 : Int)
    height := (y2 : Int) - (y1 : Int) }

/-- Emit elements for the matched node strings: a node without a
parseable bounds attribute is skipped, and `index` counts only emitted
elements. -/
def buildElements : List (List Char) → Nat → List UiElement
  | [], _ => []
  | n :: ns, i =>
    match matchBounds n with
    | none => buildElements ns i
    | some (x1, y1, x2, y2) => mkNodeElement i n x1 y1 x2 y2 :: buildElements ns (i + 1)

/-- `parseUiHierarchy(xml)`. -/
def parseUiHierarchy (xml : String) : List UiElement :=
  buildElements (scanNodes xml.data) 0

/-! ## Query engine (`findElements`) -/

/-- The optional criteria record of `findElements`; a `none` field is an
omitted (JavaScript `undefined`) criterion. -/
structure FindCriteria where
  text : Option String := none
  resourceId : Option String := none
  className : Option String := none
  clickable : Option Bool := none
  enabled : Option Bool := none
  visible : Option Bool := none
deriving DecidableEq, Repr

/-! Each JavaScript guard `if (criteria.x && ...) return false` (for the
string criteria, with truthiness: an empty string skips the guard) or
`if (criteria.x !== undefined && ...) return false` (for the boolean
criteria) is one pass function; an element survives when every guard
passes. -/

/-- Guard for `criteria.text`: case-insensitive containment in `text`
or `contentDescription`, skipped for an absent or empty criterion. -/
def textPass (crit : Option String) (el : UiElement) : Bool :=
  match crit with
  | none => true
  | some t =>
    t.isEmpty ||
    containsL (lowerL el.text.data) (lowerL t.data) ||
    containsL (lowerL el.contentDesc.data) (lowerL t.data)

/-- Guard for `criteria.resourceId` (case-sensitive containment). -/
def ridPass (crit : Option String) (el : UiElement) : Bool :=
  match crit with
  | none => true
  | some r => r.isEmpty || containsL el.resourceId.data r.data

/-- Guard for `criteria.className` (case-sensitive containment). -/
def classPass (crit : Option String) (el : UiElement) : Bool :=
  match crit with
  | none => true
  | some s => s.isEmpty || containsL el.className.data s.data

/-- Guard for `criteria.clickable` (applies even when `false`). -/
def clickPass (crit : Option Bool) (el : UiElement) : Bool :=
  match crit with
  | none => true
  | some b => el.clickable == b

/-- Guard for `criteria.enabled` (applies even when `false`). -/
def enabledPass (crit : Option Bool) (el : UiElement) : Bool :=
  match crit with
  | none => true
  | some b => el.enabled == b

/-- Guard for `criteria.visible` (`width > 0 && height > 0`). -/
def visiblePass (crit : Option Bool) (el : UiElement) : Bool :=
  match crit with
  | none => true
  | some v => (decide (0 < el.width) && decide (0 < el.height)) == v

/-- `findElements(elements, criteria)`. -/
def findElements (elements : List UiElement) (criteria : FindCriteria) :
    List UiElement :=
  elements.filter fun el =>
    textPass criteria.text el && ridPass criteria.resourceId el &&
    classPass criteria.className el && clickPass criteria.clickable el &&
    enabledPass criteria.enabled el && visiblePass criteria.visible el

/-! ## Fuzzy matcher (`findBestMatch`) -/

/-- `getShortId(resourceId)`: portion after the last `:id/`
(`resourceId.split(":id/").pop()`), with `""` for an empty id. -/
def getShortId (resourceId : String) : String :=
  if resourceId.isEmpty then "" else ⟨afterLast ":id/".data resourceId.data⟩

structure MatchResult where
  element : UiElement
  confidence : Nat
  reason : String
deriving DecidableEq, Repr

structure ScoredEl where
  element : UiElement
  score : Nat
  reason : String
deriving DecidableEq, Repr

/-- The normalized description used by the matcher:
`description.toLowerCase().trim()`. -/
def matcherDesc (description : String) : List Char :=
  trimL (lowerL description.data)

/-- The deslugged id of an element: short id, lower-cased, underscores
replaced with spaces. -/
def desluggedId (el : UiElement) : List Char :=
  (lowerL (getShortId el.resourceId).data).map fun c =>
    if c == '_' then ' ' else c

/-- The rule chain of the scoring body: the source assigns the mutable
`score` local through one if/else chain; this is that chain's final
score value. -/
def ruleScore (desc : List Char) (el : UiElement) : Nat :=
  let text := lowerL el.text.data
  let contentDesc := lowerL el.contentDesc.data
  let id := desluggedId el
  if text == desc then 100
  else if contentDesc == desc then 95
  else if containsL text desc then 80
  else if containsL contentDesc desc then 75
  else if containsL id desc ||
      containsL id (desc.map fun c => if c == ' ' then '_' else c) then 60
  else if (splitOnCharL ' ' desc).any
      (fun word => containsL text word && decide (2 < word.length)) then 40
  else if (splitOnCharL ' ' desc).any
      (fun word => containsL contentDesc word && decide (2 < word.length)) then 35
  else 0

/-- The same chain's final value for the mutable `reason` local. -/
def ruleReason (desc : List Char) (el : UiElement) : String :=
  let text := lowerL el.text.data
  let contentDesc := lowerL el.contentDesc.data
  let id := desluggedId el
  if text == desc then "exact text match: \"" ++ el.text ++ "\""
  else if contentDesc == desc then "exact description: \"" ++ el.contentDesc ++ "\""
  else if containsL text desc then "text contains: \"" ++ el.text ++ "\""
  else if containsL contentDesc desc then
    "description contains: \"" ++ el.contentDesc ++ "\""
  else if containsL id desc ||
      containsL id (desc.map fun c => if c == ' ' then '_' else c) then
    "ID match: \"" ++ el.resourceId ++ "\""
  else if (splitOnCharL ' ' desc).any
      (fun word => containsL text word && decide (2 < word.length)) then
    "partial text match: \"" ++ el.text ++ "\""
  else if (splitOnCharL ' ' desc).any
      (fun word => containsL contentDesc word && decide (2 < word.length)) then
    "partial description match: \"" ++ el.contentDesc ++ "\""
  else ""

/-- The scoring body applied to each candidate element: the rule chain,
then the flat `+10` clickable bonus on a positive rule score
(`if (score > 0 && el.clickable) score += 10`). -/
def scoreElement (desc : List Char) (el : UiElement) : ScoredEl :=
  let score0 := ruleScore desc el
  let score := if 0 < score0 ∧ el.clickable then score0 + 10 else score0
  ⟨el, score, ruleReason desc el⟩

/-- The eligibility filter of the matcher:
`el.enabled && el.width > 0 && el.height > 0`. -/
def eligibleB (el : UiElement) : Bool :=
  el.enabled && decide (0 < el.width) && decide (0 < el.height)

/-- First list entry attaining the maximal score.  This models
`sort((a, b) => b.score - a.score)` — a stable descending sort — followed
by taking element `[0]`: the result is the earliest candidate with the
maximal score. -/
def pickBest : List ScoredEl → Option ScoredEl
  | [] => none
  | s :: ss =>
    match pickBest ss with
    | none => some s
    | some t => if t.score > s.score then some t else some s

/-- The `scored` list of the matcher: eligible elements scored, the
zero scores dropped. -/
def scoredList (elements : List UiElement) (d : String) : List ScoredEl :=
  ((elements.filter eligibleB).map (scoreElement (matcherDesc d))).filter
    fun s => decide (0 < s.score)

/-- `findBestMatch(elements, description)`. -/
def findBestMatch (elements : List UiElement) (description : String) :
    Option MatchResult :=
  match pickBest (scoredList elements description) with
  | none => none
  | some best => some ⟨best.element, min best.score 100, best.reason⟩

/-! Spec-side formulation of the scoring rules: an ordered table of
(condition, score) rows, the first matching row winning, as the spec
words it.  This is compared against `scoreElement` (the source's if/else
chain) in the theorem for claim C2. -/

/-- The spec's ordered rule table for one element. -/
def ruleTable (desc : List Char) (el : UiElement) : List (Bool × Nat) :=
  let text := lowerL el.text.data
  let contentDesc := lowerL el.contentDesc.data
  let id := desluggedId el
  [ (text == desc, 100),
    (contentDesc == desc, 95),
    (containsL text desc, 80),
    (containsL contentDesc desc, 75),
    (containsL id desc ||
       containsL id (desc.map fun c => if c == ' ' then '_' else c), 60),
    ((splitOnCharL ' ' desc).any
       (fun word => containsL text word && decide (2 < word.length)), 40),
    ((splitOnCharL ' ' desc).any
       (fun word => containsL contentDesc word && decide (2 < word.length)), 35) ]

/-- Value of the first row of an ordered rule table whose condition
holds; `0` when no row matches. -/
def firstMatch : List (Bool × Nat) → Nat
  | [] => 0
  | (c, v) :: rest => if c then v else firstMatch rest

/-- Score of the first matching rule of the table, `0` when none match. -/
def specRuleScore (desc : List Char) (el : UiElement) : Nat :=
  firstMatch (ruleTable desc el)

/-- Rule score plus the flat clickable bonus, as the spec words it. -/
def specFinalScore (desc : List Char) (el : UiElement) : Nat :=
  let r := specRuleScore desc el
  if 0 < r ∧ el.clickable then r + 10 else r

/-- Maximal spec-side final score over the eligible elements. -/
def maxEligibleScore (els : List UiElement) (d : String) : Nat :=
  ((els.filter eligibleB).map (specFinalScore (matcherDesc d))).foldr max 0

/-! ## Desktop hierarchy parser (`desktopHierarchyToUiElements`) -/

/-- JavaScript `\w`: `[A-Za-z0-9_]`. -/
def isWordChar (c : Char) : Bool := c.isAlpha || c.isDigit || c == '_'

/-- Leftmost match of `<(\w+)>`, returning the captured word. -/
def classMatchScan : List Char → Option (List Char)
  | [] => none
  | c :: cs =>
    if c == '<' then
      let w := cs.takeWhile isWordChar
      if !w.isEmpty && (cs.drop w.length).head? == some '>' then some w
      else classMatchScan cs
    else classMatchScan cs

/-- Try to match `@ \((\d+),\s*(\d+)\)` at the head of the list. -/
def tryCoordAt (s : List Char) : Option (Nat × Nat) := do
  let s ← stripLit "@ (".data s
  let (x, s) ← readDigits s
  let s ← stripLit [','] s
  let s := s.dropWhile isWs
  let (y, s) ← readDigits s
  let _ ← stripLit [')'] s
  some (x, y)

/-- Leftmost match of the coordinate marker `@ (x, y)`. -/
def coordMatchScan : List Char → Option (Nat × Nat)
  | [] => none
  | c :: cs =>
    match tryCoordAt (c :: cs) with
    | some r => some r
    | none => coordMatchScan cs

/-- Try to match `\[(\d+)x(\d+)\]` at the head of the list. -/
def trySizeAt (s : List Char) : Option (Nat × Nat) := do
  let s ← stripLit ['['] s
  let (w, s) ← readDigits s
  let s ← stripLit ['x'] s
  let (h, s) ← readDigits s
  let _ ← stripLit [']'] s
  some (w, h)

/-- Leftmost match of the size marker `[WxH]`. -/
def sizeMatchScan : List Char → Option (Nat × Nat)
  | [] => none
  | c :: cs =>
    match trySizeAt (c :: cs) with
    | some r => some r
    | none => sizeMatchScan cs

/-- Element constructor shared by every emitted desktop line; the bounds
are `(x, y)`–`(x+w, y+h)` and `Math.floor(x + w/2)` on integer `x` is
`x + w/2` in natural division. -/
def mkDesktopCore (idx : Nat) (resourceId className text : String)
    (x y w h : Nat)
    (clickable enabled focusable focused scrollable password selected : Bool) :
    UiElement :=
  { index := idx
    resourceId := resourceId
    className := className
    packageName := ""
    text := text
    contentDesc := ""
    checkable := false
    checked := false
    clickable := clickable
    enabled := enabled
    focusable := focusable
    focused := focused
    scrollable := scrollable
    longClickable := false
    password := password
    selected := selected
    bounds := ⟨(x : Int), (y : Int), ((x + w : Nat) : Int), ((y + h : Nat) : Int)⟩
    centerX := ((x + w / 2 : Nat) : Int)
    centerY := ((y + h / 2 : Nat) : Int)
    width := (w : Int)
    height := (h : Int) }

/-- Element produced from one (trimmed, non-skipped) desktop line. -/
def mkDesktopElement (idx : Nat) (trimmed : List Char) : UiElement :=
  let classM := classMatchScan trimmed
  let textM := attrMatchScan "text=\"".data trimmed
  let labelM := attrMatchScan "label=\"".data trimmed
  let valueM := attrMatchScan "value=\"".data trimmed
  let idM := attrMatchScan "id=\"".data trimmed
  let coordM := coordMatchScan trimmed
  let sizeM := sizeMatchScan trimmed
  let roleM := attrMatchScan "role=\"".data trimmed
  let className := classM.getD []
  let text := (textM <|> labelM <|> valueM).getD []
  let x := (coordM.map (·.1)).getD 0
  let y := (coordM.map (·.2)).getD 0
  let w := (sizeM.map (·.1)).getD 100
  let h := (sizeM.map (·.2)).getD 40
  let role := roleM.getD []
  let isClickable :=
    containsL role "button".data || containsL role "link".data ||
    containsL className "Button".data || containsL className "Link".data ||
    containsL className "MenuItem".data || containsL trimmed "clickable".data
  let isScrollable :=
    containsL className "ScrollView".data || containsL className "List".data ||
    containsL role "scroll".data
  let isFocused := containsL trimmed "focused".data
  let isInput :=
    containsL className "TextField".data || containsL className "TextInput".data ||
    containsL className "EditText".data || containsL role "textfield".data ||
    containsL role "textarea".data
  mkDesktopCore idx ⟨idM.getD []⟩ ⟨className⟩ ⟨text⟩ x y w h
    isClickable
    (!containsL trimmed "disabled".data)
    (isClickable || isInput)
    isFocused
    isScrollable
    (containsL className "SecureTextField".data ||
      containsL className "Password".data)
    (containsL trimmed "selected".data)

/-- One line of the desktop dump: trimmed, then skipped when empty, when
it starts with a rule character, or when it has none of the three
minimal signals (class tag, text attribute, coordinate marker). -/
def processLine (idx : Nat) (line : List Char) : Option UiElement :=
  let trimmed := trimL line
  if trimmed.isEmpty then none
  else if startsWithL trimmed "─".data || startsWithL trimmed "=".data then none
  else if (classMatchScan trimmed).isNone &&
      (attrMatchScan "text=\"".data trimmed).isNone &&
      (coordMatchScan trimmed).isNone then none
  else some (mkDesktopElement idx trimmed)

/-- Emit elements line by line, incrementing `index` only on emitted
lines. -/
def buildDesktop : List (List Char) → Nat → List UiElement
  | [], _ => []
  | l :: ls, i =>
    match processLine i l with
    | none => buildDesktop ls i
    | some el => el :: buildDesktop ls (i + 1)

/-- `desktopHierarchyToUiElements(hierarchyText)`. -/
def desktopHierarchyToUiElements (hierarchyText : String) : List UiElement :=
  buildDesktop (splitOnCharL '\n' hierarchyText.data) 0

/-! ## Screen semantics classifier (`analyzeScreen`) -/

structure Coordinates where
  x : Int
  y : Int
deriving DecidableEq, Repr

structure ButtonInfo where
  index : Nat
  label : String
  coordinates : Coordinates
deriving DecidableEq, Repr

structure InputInfo where
  index : Nat
  hint : String
  value : String
  coordinates : Coordinates
deriving DecidableEq, Repr

structure TextInfo where
  content : String
  coordinates : Coordinates
deriving DecidableEq, Repr

inductive ScrollDirection where
  | vertical
  | horizontal
  | both
deriving DecidableEq, Repr

structure ScrollInfo where
  index : Nat
  direction : ScrollDirection
  coordinates : Coordinates
deriving DecidableEq, Repr

structure NavigationState where
  hasBack : Bool
  hasMenu : Bool
  hasTabs : Bool
  currentTab : Option String
deriving DecidableEq, Repr

structure ScreenAnalysis where
  activity : Option String
  screenTitle : Option String
  hasDialog : Option Bool
  dialogTitle : Option String
  navigationState : Option NavigationState
  buttons : List ButtonInfo
  inputs : List InputInfo
  texts : List TextInfo
  scrollable : List ScrollInfo
  summary : String
deriving DecidableEq, Repr

/-- `detectScreenTitle(elements)`: first toolbar-family element with
text, else first prominent non-clickable text near the top. -/
def detectScreenTitle (elements : List UiElement) : Option String :=
  match elements.find? (fun el =>
      (["Toolbar", "ActionBar", "NavigationBar", "Header"].any fun tc =>
        containsL el.className.data tc.data) && !el.text.isEmpty) with
  | some el => some el.text
  | none =>
    match elements.find? (fun el =>
        !el.text.isEmpty && !el.clickable &&
        decide (el.bounds.y1 < 200) && decide (200 < el.width) &&
        (containsL el.className.data "TextView".data ||
          containsL el.className.data "StaticText".data)) with
    | some el => some el.text
    | none => none

/-- Containment of `child`'s bounds in `el`'s bounds on all four edges,
with the text-view-like class test, as used for dialog titles. -/
def dialogTitleCand (el child : UiElement) : Bool :=
  !child.text.isEmpty &&
  decide (el.bounds.y1 ≤ child.bounds.y1) &&
  decide (child.bounds.y2 ≤ el.bounds.y2) &&
  decide (el.bounds.x1 ≤ child.bounds.x1) &&
  decide (child.bounds.x2 ≤ el.bounds.x2) &&
  (containsL child.className.data "TextView".data ||
    containsL child.className.data "StaticText".data)

/-- Nested non-clickable text used as the title of a heuristic dialog
card. -/
def cardTitleCand (el child : UiElement) : Bool :=
  !child.text.isEmpty && !child.clickable &&
  decide (el.bounds.y1 ≤ child.bounds.y1) &&
  decide (child.bounds.y2 ≤ el.bounds.y2) &&
  decide (el.bounds.x1 ≤ child.bounds.x1) &&
  decide (child.bounds.x2 ≤ el.bounds.x2)

/-- Largest element area on screen (`Math.max` over the mapped areas,
`0` for an empty list as guarded in the source). -/
def screenArea (elements : List UiElement) : Int :=
  match elements.map (fun el => el.width * el.height) with
  | [] => 0
  | a :: as => as.foldl max a

/-- The heuristic dialog-card condition: frame/view class, area between
30% and 85% of the largest area (the float thresholds `0.3` and `0.85`
modelled as exact rationals), offset from the top-left, and possessing a
nested title (the source's loop returns only when a title is found, so
title existence is part of the condition). -/
def cardPred (elements : List UiElement) (area0 : Int) (el : UiElement) : Bool :=
  (containsL el.className.data "FrameLayout".data ||
    containsL el.className.data "View".data) &&
  decide (3 * area0 < 10 * (el.width * el.height)) &&
  decide (20 * (el.width * el.height) < 17 * area0) &&
  decide (100 < el.bounds.y1) && decide (20 < el.bounds.x1) &&
  (elements.find? (cardTitleCand el)).isSome

/-- `detectDialog(elements)`: explicit dialog-family class first, then
the dialog-card heuristic. -/
def detectDialog (elements : List UiElement) : Bool × Option String :=
  match elements.find? (fun el =>
      ["AlertDialog", "Dialog", "BottomSheet", "Modal", "Popup", "Alert"].any
        fun dc => containsL el.className.data dc.data) with
  | some el => (true, (elements.find? (dialogTitleCand el)).map (·.text))
  | none =>
    match elements.find? (cardPred elements (screenArea elements)) with
    | some el => (true, (elements.find? (cardTitleCand el)).map (·.text))
    | none => (false, none)

/-- One iteration of the navigation-detection loop.  The source computes
a lower-cased `text` variable it never reads; it is omitted here.  The
selected-tab check reads the `hasTabs` flag already updated by the same
iteration, which the sequential lets reproduce. -/
def navStep (acc : NavigationState) (el : UiElement) : NavigationState :=
  let desc := lowerL el.contentDesc.data
  let id := lowerL el.resourceId.data
  let hasBack := acc.hasBack ||
    (containsL desc "back".data || containsL desc "navigate up".data ||
     containsL id "back".data || containsL id "navigate_up".data ||
     desc == "back".data || containsL el.className.data "BackButton".data)
  let hasMenu := acc.hasMenu ||
    (containsL desc "menu".data || containsL desc "more options".data ||
     containsL desc "overflow".data || containsL id "menu".data ||
     containsL id "overflow".data || containsL id "hamburger".data)
  let hasTabs1 := acc.hasTabs ||
    (containsL el.className.data "TabLayout".data ||
     containsL el.className.data "TabBar".data ||
     containsL el.className.data "BottomNavigation".data ||
     containsL el.className.data "TabView".data ||
     containsL id "tab_layout".data || containsL id "bottom_nav".data ||
     containsL id "tab_bar".data)
  let currentTab1 :=
    if el.selected && hasTabs1 && !el.text.isEmpty then some el.text
    else acc.currentTab
  if el.selected &&
      (containsL el.className.data "Tab".data || containsL id "tab".data) &&
      !el.text.isEmpty then
    ⟨hasBack, hasMenu, true, some el.text⟩
  else
    ⟨hasBack, hasMenu, hasTabs1, currentTab1⟩

/-- `detectNavigation(elements)`. -/
def detectNavigation (elements : List UiElement) : NavigationState :=
  elements.foldl navStep ⟨false, false, false, none⟩

/-- Visibility check used by the classification loop. -/
def visibleB (el : UiElement) : Bool :=
  decide (0 < el.width) && decide (0 < el.height)

/-- Button label: `el.text || el.contentDesc || getShortId(...) || ""`. -/
def buttonLabel (el : UiElement) : String :=
  if !el.text.isEmpty then el.text
  else if !el.contentDesc.isEmpty then el.contentDesc
  else getShortId el.resourceId

/-- Button entry of the classification loop, when the element produces
one.  The single source loop appends to four independent lists; it is
modelled as four order-preserving passes. -/
def buttonOf (el : UiElement) : Option ButtonInfo :=
  if visibleB el && el.clickable && el.enabled && !(buttonLabel el).isEmpty then
    some ⟨el.index, buttonLabel el, ⟨el.centerX, el.centerY⟩⟩
  else none

/-- Input-field entry of the classification loop. -/
def inputOf (el : UiElement) : Option InputInfo :=
  if visibleB el &&
      (containsL el.className.data "EditText".data ||
       containsL el.className.data "TextInputEditText".data ||
       containsL el.className.data "TextField".data ||
       containsL el.className.data "TextInput".data ||
       containsL el.className.data "SecureTextField".data) then
    some ⟨el.index,
      (if !el.contentDesc.isEmpty then el.contentDesc
       else getShortId el.resourceId),
      el.text, ⟨el.centerX, el.centerY⟩⟩
  else none

/-- Static-text entry of the classification loop. -/
def textOf (el : UiElement) : Option TextInfo :=
  if visibleB el && !el.text.isEmpty && !el.clickable &&
      (containsL el.className.data "TextView".data ||
       containsL el.className.data "StaticText".data ||
       containsL el.className.data "Label".data) then
    some ⟨el.text, ⟨el.centerX, el.centerY⟩⟩
  else none

/-- Scrollable entry of the classification loop. -/
def scrollOf (el : UiElement) : Option ScrollInfo :=
  if visibleB el && el.scrollable then
    some ⟨el.index,
      (if el.width < el.height then .vertical else .horizontal),
      ⟨el.centerX, el.centerY⟩⟩
  else none

def dirToString : ScrollDirection → String
  | .vertical => "vertical"
  | .horizontal => "horizontal"
  | .both => "both"

/-- `analyzeScreen(elements, activity?)`. -/
def analyzeScreen (elements : List UiElement) (activity : Option String) :
    ScreenAnalysis :=
  let buttons := elements.filterMap buttonOf
  let inputs := elements.filterMap inputOf
  let texts := elements.filterMap textOf
  let scrollable := elements.filterMap scrollOf
  let screenTitle := detectScreenTitle elements
  let dialogInfo := detectDialog elements
  let nav := detectNavigation elements
  let summaryParts : List String :=
    (match activity with
     | some a => ["Screen: " ++ (⟨afterLast ['.'] a.data⟩ : String)]
     | none =>
       match screenTitle with
       | some t => ["Screen: " ++ t]
       | none => []) ++
    (if dialogInfo.1 then
       ["Dialog: \"" ++ (dialogInfo.2.getD "untitled") ++ "\""]
     else []) ++
    (if 0 < buttons.length then
       [toString buttons.length ++ " buttons: " ++
        String.intercalate ", "
          ((buttons.take 5).map fun b => "\"" ++ b.label ++ "\"") ++
        (if 5 < buttons.length then "..." else "")]
     else []) ++
    (if 0 < inputs.length then
       [toString inputs.length ++ " input field(s)"]
     else []) ++
    (match scrollable with
     | [] => []
     | s :: _ => ["Scrollable: " ++ dirToString s.direction]) ++
    (if nav.hasBack || nav.hasMenu || nav.hasTabs then
       ["Nav: " ++ String.intercalate ", "
          ((if nav.hasBack then ["back"] else []) ++
           (if nav.hasMenu then ["menu"] else []) ++
           (if nav.hasTabs then
              ["tabs" ++ (match nav.currentTab with
                          | some t => "(" ++ t ++ ")"
                          | none => "")]
            else []))]
     else [])
  let joined := String.intercalate " | " summaryParts
  { activity := activity
    screenTitle := screenTitle
    hasDialog := if dialogInfo.1 then some true else none
    dialogTitle := dialogInfo.2
    navigationState :=
      if nav.hasBack || nav.hasMenu || nav.hasTabs then some nav else none
    buttons := buttons
    inputs := inputs
    texts := texts.take 20
    scrollable := scrollable
    summary := if joined.isEmpty then "Empty screen" else joined }

/-! ## Differ (`diffUiElements`) -/

structure UiDiffResult where
  screenChanged : Bool
  appeared : List String
  disappeared : List String
  beforeCount : Nat
  afterCount : Nat
deriving DecidableEq, Repr

/-- `elementFingerprint(el)`: the string
`resourceId + "|" + text + "|" + className`. -/
def elementFingerprint (el : UiElement) : String :=
  el.resourceId ++ "|" ++ el.text ++ "|" ++ el.className

/-- The after-elements whose fingerprint string is absent from the
before fingerprints (the source's `appearedElements`). -/
def appearedElements (before after : List UiElement) : List UiElement :=
  after.filter fun el =>
    !(before.map elementFingerprint).contains (elementFingerprint el)

/-- The before-elements whose fingerprint string is absent from the
after fingerprints (the source's `disappearedElements`). -/
def disappearedElements (before after : List UiElement) : List UiElement :=
  before.filter fun el =>
    !(after.map elementFingerprint).contains (elementFingerprint el)

/-- Number of distinct values in a list: `new Set(l).size`. -/
def distinctCount {α : Type} [BEq α] : List α → Nat
  | [] => 0
  | s :: rest => (if rest.contains s then 0 else 1) + distinctCount rest

/-- The short descriptive form used for appeared/disappeared entries. -/
def describeEl (el : UiElement) : String :=
  let label := buttonLabel el
  let shortClass := afterLast ['.'] el.className.data
  if !label.isEmpty then
    if el.clickable then "\"" ++ label ++ "\" " ++ (⟨lowerL shortClass⟩ : String)
    else "\"" ++ label ++ "\""
  else (⟨shortClass⟩ : String)

/-- `diffUiElements(before, after)`.  The float comparison
`changedCount / totalUnique > 0.6` is modelled as the exact rational
comparison `5 * changedCount > 3 * totalUnique`, which agrees with the
IEEE double comparison for every representable list length. -/
def diffUiElements (before after : List UiElement) : UiDiffResult :=
  let appearedEls := appearedElements before after
  let disappearedEls := disappearedElements before after
  let totalUnique :=
    distinctCount (before.map elementFingerprint ++ after.map elementFingerprint)
  let changedCount := appearedEls.length + disappearedEls.length
  { screenChanged :=
      decide (0 < totalUnique) && decide (3 * totalUnique < 5 * changedCount)
    appeared := ((appearedEls.take 5).map describeEl).filter fun s => !s.isEmpty
    disappeared :=
      ((disappearedEls.take 5).map describeEl).filter fun s => !s.isEmpty
    beforeCount := before.length
    afterCount := after.length }

/-! ## Spec-side formulation of diff identity (claim C4)

The claim reads element identity as the exact triple
`(resourceId, text, className)`; the following definitions formalize
that wording, to be compared with the source's concatenated-string
fingerprint. -/

/-- The identity triple of the claim. -/
def tripleFp (el : UiElement) : String × String × String :=
  (el.resourceId, el.text, el.className)

/-- After-elements whose triple is absent from the before triples. -/
def tripleAppeared (before after : List UiElement) : List UiElement :=
  after.filter fun el => !((before.map tripleFp).contains (tripleFp el))

/-- Before-elements whose triple is absent from the after triples. -/
def tripleDisappeared (before after : List UiElement) : List UiElement :=
  before.filter fun el => !((after.map tripleFp).contains (tripleFp el))

/-- The claim's screen-change verdict over triple identity. -/
def tripleScreenChanged (before after : List UiElement) : Bool :=
  let u := distinctCount (before.map tripleFp ++ after.map tripleFp)
  decide (0 < u) &&
    decide (3 * u <
      5 * ((tripleAppeared before after).length +
           (tripleDisappeared before after).length))

/-- None of the three identity fields contains the `|` delimiter. -/
def barFreeP (el : UiElement) : Prop :=
  '|' ∉ el.resourceId.data ∧ '|' ∉ el.text.data ∧ '|' ∉ el.className.data

instance (el : UiElement) : Decidable (barFreeP el) := by
  unfold barFreeP; infer_instance

/-! ## Concrete fixtures used by counterexamples and witnesses -/

/-- Fixture builder: an element with the given identity and state
fields, zero-origin bounds and consistent derived fields. -/
def mkEl (idx : Nat) (rid cls txt cdesc : String)
    (clickable enabled : Bool) (w h : Int) : UiElement :=
  { index := idx, resourceId := rid, className := cls, packageName := "",
    text := txt, contentDesc := cdesc, checkable := false, checked := false,
    clickable := clickable, enabled := enabled, focusable := clickable,
    focused := false, scrollable := false, longClickable := false,
    password := false, selected := false, bounds := ⟨0, 0, w, h⟩,
    centerX := w / 2, centerY := h / 2, width := w, height := h }

def loginBtn : UiElement :=
  mkEl 0 "" "android.widget.Button" "Login" "" true true 880 100

def mrLogin : MatchResult := ⟨loginBtn, 100, "exact text match: \"Login\""⟩

def cexDisabled : UiElement :=
  mkEl 0 "" "android.widget.Button" "ok" "" true false 100 50

def cexPartial : UiElement :=
  mkEl 1 "" "android.widget.TextView" "ok go" "" false true 100 50

def cexPlain : UiElement :=
  mkEl 0 "" "android.widget.TextView" "login" "" false true 200 50

def cexIcon : UiElement :=
  mkEl 1 "" "android.widget.ImageButton" "" "login" true true 48 48

def forgotBtn : UiElement :=
  mkEl 0 "" "android.widget.Button" "Forgot password?" "" true false 300 50

def zeroAreaEl : UiElement :=
  mkEl 0 "" "android.widget.TextView" "ok" "" false true 0 50

def wordEl : UiElement :=
  mkEl 0 "" "android.view.View" "" "forgot password help" false true 100 40

def mrWord : MatchResult :=
  ⟨wordEl, 35, "partial description match: \"forgot password help\""⟩

def noMatchEl : UiElement :=
  mkEl 0 "" "android.widget.TextView" "alpha" "" false true 100 40

def barEl1 : UiElement := mkEl 0 "a|b" "c" "" "" false true 10 10

def barEl2 : UiElement := mkEl 0 "a" "c" "b|" "" false true 10 10

def plainEl1 : UiElement := mkEl 0 "idA" "ClassA" "hello" "" false true 10 10

def plainEl2 : UiElement := mkEl 0 "idB" "ClassB" "world" "" false true 10 10

def loginXml : String :=
  "<node text=\"Login\" bounds=\"[100,800][980,900]\" clickable=\"true\"/>"

def parsedLoginEl : UiElement := (parseUiHierarchy loginXml).headI

def deskLine : String := "  <Button> text=\"Click me\" @ (100, 200) [50x30]"

def parsedDeskEl : UiElement := (desktopHierarchyToUiElements deskLine).headI

/-! ## Lemmas about the matcher pipeline -/

/-- Maximal score in a scored list (`0` for the empty list). -/
def scoreMax (l : List ScoredEl) : Nat :=
  (l.map ScoredEl.score).foldr max 0

theorem scoreMax_cons (s : ScoredEl) (ss : List ScoredEl) :
    scoreMax (s :: ss) = max s.score (scoreMax ss) := rfl

theorem pickBest_eq_none {l : List ScoredEl} :
    pickBest l = none ↔ l = [] := by
  cases l with
  | nil => simp [pickBest]
  | cons s ss =>
    simp only [pickBest]
    cases h : pickBest ss with
    | none => simp
    | some t => dsimp only; constructor
                · intro hc; split at hc <;> simp_all
                · intro hc; simp_all

theorem pickBest_mem {l : List ScoredEl} {t : ScoredEl}
    (h : pickBest l = some t) : t ∈ l := by
  induction l generalizing t with
  | nil => simp [pickBest] at h
  | cons s ss ih =>
    simp only [pickBest] at h
    cases hp : pickBest ss with
    | none => rw [hp] at h; simp at h; simp [h]
    | some u =>
      rw [hp] at h; dsimp only at h
      split at h
      · simp at h; subst h; exact List.mem_cons_of_mem _ (ih hp)
      · simp at h; simp [h]

theorem pickBest_score {l : List ScoredEl} {t : ScoredEl}
    (h : pickBest l = some t) : t.score = scoreMax l := by
  induction l generalizing t with
  | nil => simp [pickBest] at h
  | cons s ss ih =>
    simp only [pickBest] at h
    cases hp : pickBest ss with
    | none =>
      rw [hp] at h; simp at h
      have : ss = [] := pickBest_eq_none.mp hp
      subst this; subst h; simp [scoreMax_cons, scoreMax]
    | some u =>
      rw [hp] at h; dsimp only at h
      have hu : u.score = scoreMax ss := ih hp
      rw [scoreMax_cons]
      split at h
      · simp at h; subst h; omega
      · simp at h; subst h; omega

theorem mem_score_le_scoreMax {l : List ScoredEl} {s : ScoredEl}
    (h : s ∈ l) : s.score ≤ scoreMax l := by
  induction l with
  | nil => simp at h
  | cons x xs ih =>
    rw [scoreMax_cons]
    rcases List.mem_cons.mp h with h' | h'
    · subst h'; omega
    · have := ih h'; omega

theorem scoreMax_filter_pos (l : List ScoredEl) :
    scoreMax (l.filter fun s => decide (0 < s.score)) = scoreMax l := by
  induction l with
  | nil => rfl
  | cons s ss ih =>
    by_cases h : 0 < s.score
    · rw [List.filter_cons_of_pos (by simpa using h), scoreMax_cons,
        scoreMax_cons, ih]
    · rw [List.filter_cons_of_neg (by simpa using h), scoreMax_cons, ih]
      omega

theorem scoreElement_element (d : List Char) (el : UiElement) :
    (scoreElement d el).element = el := rfl

theorem ruleScore_eq_spec (d : List Char) (el : UiElement) :
    ruleScore d el = specRuleScore d el := by
  unfold ruleScore specRuleScore ruleTable
  simp only [firstMatch]

theorem scoreElement_score (d : List Char) (el : UiElement) :
    (scoreElement d el).score =
      if 0 < ruleScore d el ∧ el.clickable then ruleScore d el + 10
      else ruleScore d el := rfl

theorem scoreElement_eq_spec (d : List Char) (el : UiElement) :
    (scoreElement d el).score = specFinalScore d el := by
  rw [scoreElement_score, specFinalScore, ← ruleScore_eq_spec]

theorem ruleScore_cases (d : List Char) (el : UiElement) :
    ruleScore d el = 0 ∨ 35 ≤ ruleScore d el := by
  unfold ruleScore
  dsimp only
  split_ifs <;> omega

theorem scoreElement_pos_ge (d : List Char) (el : UiElement)
    (h : 0 < (scoreElement d el).score) : 35 ≤ (scoreElement d el).score := by
  rw [scoreElement_score] at h ⊢
  rcases ruleScore_cases d el with h0 | h35 <;> split_ifs at h ⊢ <;> omega

theorem ruleScore_exact (d : List Char) (el : UiElement)
    (h : lowerL el.text.data = d) : ruleScore d el = 100 := by
  unfold ruleScore
  have hb : (lowerL el.text.data == d) = true := by simp [h]
  simp only [hb, if_true]

theorem scoreElement_exact (d : List Char) (el : UiElement)
    (h : lowerL el.text.data = d) : 100 ≤ (scoreElement d el).score := by
  rw [scoreElement_score, ruleScore_exact d el h]
  split_ifs <;> omega

theorem eligibleB_props {el : UiElement} (h : eligibleB el = true) :
    el.enabled = true ∧ 0 < el.width ∧ 0 < el.height := by
  simpa [eligibleB, Bool.and_eq_true, decide_eq_true_eq, and_assoc] using h

theorem scoredList_scoreMax (els : List UiElement) (d : String) :
    scoreMax (scoredList els d) = maxEligibleScore els d := by
  unfold scoredList maxEligibleScore
  rw [scoreMax_filter_pos]
  unfold scoreMax
  rw [List.map_map]
  have hm : List.map (ScoredEl.score ∘ scoreElement (matcherDesc d))
      (els.filter eligibleB) =
      List.map (specFinalScore (matcherDesc d)) (els.filter eligibleB) :=
    List.map_congr_left fun el _ => scoreElement_eq_spec _ el
  rw [hm]

theorem scoredList_empty_iff (els : List UiElement) (d : String) :
    scoredList els d = [] ↔ maxEligibleScore els d = 0 := by
  constructor
  · intro h
    rw [← scoredList_scoreMax, h]; rfl
  · intro h
    cases hl : scoredList els d with
    | nil => rfl
    | cons s ss =>
      exfalso
      have hmem : s ∈ scoredList els d := by rw [hl]; exact List.mem_cons_self _ _
      have hle : s.score ≤ scoreMax (scoredList els d) := mem_score_le_scoreMax hmem
      rw [scoredList_scoreMax, h] at hle
      have hpos : 0 < s.score := by
        have := (List.mem_filter.mp hmem).2
        simpa using this
      omega

theorem fbm_confidence (els : List UiElement) (d : String) :
    (findBestMatch els d).map (·.confidence) =
      if 0 < maxEligibleScore els d then
        some (min (maxEligibleScore els d) 100)
      else none := by
  unfold findBestMatch
  cases hp : pickBest (scoredList els d) with
  | none =>
    have h0 : maxEligibleScore els d = 0 :=
      (scoredList_empty_iff els d).mp (pickBest_eq_none.mp hp)
    simp [h0]
  | some t =>
    have ht : t.score = scoreMax (scoredList els d) := pickBest_score hp
    have hpos : 0 < t.score := by
      have := (List.mem_filter.mp (pickBest_mem hp)).2
      simpa using this
    have hmx : 0 < maxEligibleScore els d := by
      rw [← scoredList_scoreMax, ← ht]; exact hpos
    simp only [Option.map_some']
    rw [if_pos hmx, ht, scoredList_scoreMax]

theorem fbm_some_props {els : List UiElement} {d : String} {r : MatchResult}
    (h : findBestMatch els d = some r) :
    r.element ∈ els ∧ r.element.enabled = true ∧ 0 < r.element.width ∧
      0 < r.element.height ∧ 35 ≤ r.confidence ∧ r.confidence ≤ 100 := by
  unfold findBestMatch at h
  cases hp : pickBest (scoredList els d) with
  | none => rw [hp] at h; simp at h
  | some t =>
    rw [hp] at h; simp only [Option.some.injEq] at h
    have hmem := pickBest_mem hp
    have hpos : 0 < t.score := by
      have := (List.mem_filter.mp hmem).2
      simpa using this
    have hmem2 := (List.mem_filter.mp hmem).1
    obtain ⟨el, helmem, heq⟩ := List.mem_map.mp hmem2
    obtain ⟨helin, helig⟩ := List.mem_filter.mp helmem
    obtain ⟨hen, hw, hh⟩ := eligibleB_props helig
    have helem : t.element = el := by rw [← heq]; rfl
    have h35 : 35 ≤ t.score := by
      rw [← heq] at hpos ⊢
      exact scoreElement_pos_ge _ el hpos
    subst h
    refine ⟨?_, ?_, ?_, ?_, ?_, ?_⟩
    · simpa [helem] using helin
    · simpa [helem] using hen
    · simpa [helem] using hw
    · simpa [helem] using hh
    · simp only; omega
    · simp only; omega

/-! ## Claim theorems: fuzzy matcher -/

/-- C1 (counterexample): the claim fails as stated.  First scenario:
`cexDisabled` is the only element whose text case-insensitively equals
the description "ok", but it is disabled, so `findBestMatch` returns the
other element with confidence 80 < 90.  Second scenario: `cexPlain` is
the only element whose text equals "login" and it is enabled and
visible, yet the clickable `cexIcon` with an exact content-description
match outscores it (95 + 10 > 100), so a different element is
returned. -/
theorem claim_C1_counterexample :
    ((findBestMatch [cexDisabled, cexPartial] "ok").map fun r =>
      (r.element.index, r.confidence)) = some (1, 80) ∧
    lowerL cexDisabled.text.data = matcherDesc "ok" ∧
    ¬ lowerL cexPartial.text.data = matcherDesc "ok" ∧
    ((findBestMatch [cexPlain, cexIcon] "login").map fun r =>
      r.element.index) = some 1 ∧
    lowerL cexPlain.text.data = matcherDesc "login" ∧
    ¬ lowerL cexIcon.text.data = matcherDesc "login" := by decide

/-- C1 (amended): whenever some enabled element with positive width and
height has lower-cased text equal to the lower-cased, trimmed
description, `findBestMatch` returns a result with confidence ≥ 90
(in fact exactly 100 after clamping); the returned element may however
differ from the exact-text matcher, and disabled or zero-area exact
matches do not count. -/
theorem claim_C1 : ∀ (els : List UiElement) (d : String) (el : UiElement),
    el ∈ els → el.enabled = true → 0 < el.width → 0 < el.height →
    lowerL el.text.data = matcherDesc d →
    ∃ r, findBestMatch els d = some r ∧ 90 ≤ r.confidence := by
  intro els d el hmem hen hw hh htext
  have helig : eligibleB el = true := by simp [eligibleB, hen, hw, hh]
  have hscore : 100 ≤ (scoreElement (matcherDesc d) el).score :=
    scoreElement_exact _ el htext
  have hmem2 : scoreElement (matcherDesc d) el ∈
      (els.filter eligibleB).map (scoreElement (matcherDesc d)) :=
    List.mem_map_of_mem _ (List.mem_filter.mpr ⟨hmem, helig⟩)
  have hle := mem_score_le_scoreMax hmem2
  have heq : scoreMax (scoredList els d) =
      scoreMax ((els.filter eligibleB).map (scoreElement (matcherDesc d))) := by
    unfold scoredList
    rw [scoreMax_filter_pos]
  have hmx : 100 ≤ maxEligibleScore els d := by
    rw [← scoredList_scoreMax, heq]
    omega
  have hconf := fbm_confidence els d
  rw [if_pos (by omega : 0 < maxEligibleScore els d)] at hconf
  cases hr : findBestMatch els d with
  | none => rw [hr] at hconf; simp at hconf
  | some r =>
    rw [hr] at hconf
    simp only [Option.map_some', Option.some.injEq] at hconf
    exact ⟨r, rfl, by omega⟩

/-- C1 (witness): the spec's own example — `findBestMatch` on the
parsed Login button with description "LOGIN" succeeds with
confidence ≥ 90. -/
theorem claim_C1_witness :
    ∃ r, findBestMatch [loginBtn] "LOGIN" = some r ∧ 90 ≤ r.confidence :=
  claim_C1 [loginBtn] "LOGIN" loginBtn (by decide) (by decide) (by decide)
    (by decide) (by decide)

/-- C2: for every element the matcher's score is the first matching rule
of the spec's ordered table (exact text 100, exact content-description
95, text contains 80, content-description contains 75, deslugged id
contains 60, long-enough description word in text 40, in
content-description 35, otherwise 0) plus the flat +10 clickable bonus
on positive rule scores; and the returned confidence is the maximal
eligible final score clamped to 100 (with `none` exactly when no
eligible element scores positively). -/
theorem claim_C2 :
    (∀ (d : List Char) (el : UiElement),
      (scoreElement d el).score = specFinalScore d el) ∧
    (∀ (els : List UiElement) (d : String),
      (findBestMatch els d).map (·.confidence) =
        if 0 < maxEligibleScore els d then
          some (min (maxEligibleScore els d) 100)
        else none) :=
  ⟨scoreElement_eq_spec, fbm_confidence⟩

/-- C3: `findBestMatch` only ever returns enabled elements of positive
width and height; a disabled exact text match alone yields `none` (the
spec's "Forgot password?" example), as does a zero-area exact match; and
whenever every eligible element scores zero the result is `none`. -/
theorem claim_C3 :
    (∀ (els : List UiElement) (d : String) (r : MatchResult),
        findBestMatch els d = some r →
        r.element.enabled = true ∧ 0 < r.element.width ∧ 0 < r.element.height) ∧
    findBestMatch [forgotBtn] "Forgot password?" = none ∧
    findBestMatch [zeroAreaEl] "ok" = none ∧
    (∀ (els : List UiElement) (d : String),
        (∀ el ∈ els, eligibleB el = true →
          (scoreElement (matcherDesc d) el).score = 0) →
        findBestMatch els d = none) := by
  refine ⟨?_, by decide, by decide, ?_⟩
  · intro els d r h
    obtain ⟨_, hen, hw, hh, _, _⟩ := fbm_some_props h
    exact ⟨hen, hw, hh⟩
  · intro els d h
    have hnil : scoredList els d = [] := by
      unfold scoredList
      apply List.filter_eq_nil_iff.mpr
      intro s hs
      obtain ⟨el, helmem, heq⟩ := List.mem_map.mp hs
      obtain ⟨hin, helig⟩ := List.mem_filter.mp helmem
      have h0 := h el hin helig
      rw [← heq]
      simp [h0]
    unfold findBestMatch
    rw [hnil]
    rfl

/-- C3 (witness): instantiating both universally quantified parts — the
match returned on the Login screen is enabled and visible, and a screen
whose eligible elements all score zero yields `none`. -/
theorem claim_C3_witness :
    (mrLogin.element.enabled = true ∧ 0 < mrLogin.element.width ∧
      0 < mrLogin.element.height) ∧
    findBestMatch [noMatchEl] "zzz" = none :=
  ⟨claim_C3.1 [loginBtn] "LOGIN" mrLogin (by decide),
   claim_C3.2.2.2 [noMatchEl] "zzz" (by decide)⟩

/-- C9: every non-null result of `findBestMatch` has confidence between
35 and 100 inclusive, and its element is enabled with positive width and
height. -/
theorem claim_C9 : ∀ (els : List UiElement) (d : String) (r : MatchResult),
    findBestMatch els d = some r →
    35 ≤ r.confidence ∧ r.confidence ≤ 100 ∧ r.element.enabled = true ∧
    0 < r.element.width ∧ 0 < r.element.height := by
  intro els d r h
  obtain ⟨_, hen, hw, hh, h35, h100⟩ := fbm_some_props h
  exact ⟨h35, h100, hen, hw, hh⟩

/-- C9 (witness): the weakest matching rule (35, a description word in
the content description, no bonus) instantiates the bounds. -/
theorem claim_C9_witness :
    35 ≤ mrWord.confidence ∧ mrWord.confidence ≤ 100 ∧
    mrWord.element.enabled = true ∧ 0 < mrWord.element.width ∧
    0 < mrWord.element.height :=
  claim_C9 [wordEl] "password reset" mrWord (by decide)

/-! ## Lemmas about the differ -/

theorem bool_eq_of_iff {a b : Bool} (h : a = true ↔ b = true) : a = b := by
  cases a <;> cases b <;> simp_all

theorem noBar_append_inj {r r' rest rest' : List Char}
    (hr : '|' ∉ r) (hr' : '|' ∉ r')
    (h : r ++ '|' :: rest = r' ++ '|' :: rest') : r = r' ∧ rest = rest' := by
  induction r generalizing r' with
  | nil =>
    cases r' with
    | nil => simpa using h
    | cons c rs =>
      simp only [List.nil_append, List.cons_append, List.cons.injEq] at h
      exact absurd (h.1 ▸ List.mem_cons_self _ _) hr'
  | cons c rs ih =>
    cases r' with
    | nil =>
      simp only [List.nil_append, List.cons_append, List.cons.injEq] at h
      exact absurd (h.1 ▸ List.mem_cons_self _ _) hr
    | cons c' rs' =>
      simp only [List.cons_append, List.cons.injEq] at h
      obtain ⟨hrs, hrest⟩ := ih (fun hm => hr (List.mem_cons_of_mem _ hm))
        (fun hm => hr' (List.mem_cons_of_mem _ hm)) h.2
      exact ⟨by rw [h.1, hrs], hrest⟩

theorem fingerprint_data (el : UiElement) :
    (elementFingerprint el).data =
      el.resourceId.data ++ '|' :: (el.text.data ++ '|' :: el.className.data) := by
  have hbar : ("|" : String).data = ['|'] := rfl
  simp [elementFingerprint, String.data_append, hbar]

theorem fingerprint_eq_iff {e f : UiElement} (he : barFreeP e) (hf : barFreeP f) :
    elementFingerprint e = elementFingerprint f ↔ tripleFp e = tripleFp f := by
  constructor
  · intro h
    have hd := congrArg String.data h
    rw [fingerprint_data, fingerprint_data] at hd
    obtain ⟨h1, h2⟩ := noBar_append_inj he.1 hf.1 hd
    obtain ⟨h3, h4⟩ := noBar_append_inj he.2.1 hf.2.1 h2
    simp only [tripleFp, Prod.mk.injEq]
    exact ⟨String.ext h1, String.ext h3, String.ext h4⟩
  · intro h
    simp only [tripleFp, Prod.mk.injEq] at h
    unfold elementFingerprint
    rw [h.1, h.2.1, h.2.2]

theorem containsFp_eq (b : List UiElement) (el : UiElement)
    (hb : ∀ x ∈ b, barFreeP x) (hel : barFreeP el) :
    ((b.map elementFingerprint).contains (elementFingerprint el)) =
      ((b.map tripleFp).contains (tripleFp el)) := by
  induction b with
  | nil => rfl
  | cons x xs ih =>
    simp only [List.map_cons, List.contains_cons]
    rw [ih fun z hz => hb z (List.mem_cons_of_mem _ hz)]
    congr 1
    apply bool_eq_of_iff
    simp only [beq_iff_eq]
    exact fingerprint_eq_iff hel (hb x (List.mem_cons_self _ _))

theorem appeared_eq_triple (b a : List UiElement)
    (hb : ∀ x ∈ b, barFreeP x) (ha : ∀ x ∈ a, barFreeP x) :
    appearedElements b a = tripleAppeared b a := by
  unfold appearedElements tripleAppeared
  apply List.filter_congr
  intro el hel
  rw [containsFp_eq b el hb (ha el hel)]

theorem disappeared_eq_triple (b a : List UiElement)
    (hb : ∀ x ∈ b, barFreeP x) (ha : ∀ x ∈ a, barFreeP x) :
    disappearedElements b a = tripleDisappeared b a := by
  unfold disappearedElements tripleDisappeared
  apply List.filter_congr
  intro el hel
  rw [containsFp_eq a el ha (hb el hel)]

theorem distinct_fp_eq (L : List UiElement) (hL : ∀ x ∈ L, barFreeP x) :
    distinctCount (L.map elementFingerprint) = distinctCount (L.map tripleFp) := by
  induction L with
  | nil => rfl
  | cons x xs ih =>
    simp only [List.map_cons, distinctCount]
    rw [containsFp_eq xs x (fun z hz => hL z (List.mem_cons_of_mem _ hz))
      (hL x (List.mem_cons_self _ _))]
    rw [ih fun z hz => hL z (List.mem_cons_of_mem _ hz)]

theorem screenChanged_eq_triple (b a : List UiElement)
    (hb : ∀ x ∈ b, barFreeP x) (ha : ∀ x ∈ a, barFreeP x) :
    (diffUiElements b a).screenChanged = tripleScreenChanged b a := by
  unfold diffUiElements tripleScreenChanged
  dsimp only
  have hall : ∀ x ∈ b ++ a, barFreeP x := by
    intro x hx
    rcases List.mem_append.mp hx with h | h
    · exact hb x h
    · exact ha x h
  have hdc : distinctCount (b.map elementFingerprint ++ a.map elementFingerprint) =
      distinctCount (b.map tripleFp ++ a.map tripleFp) := by
    rw [← List.map_append, ← List.map_append]
    exact distinct_fp_eq _ hall
  rw [hdc, appeared_eq_triple b a hb ha, disappeared_eq_triple b a hb ha]

theorem appeared_self (s : List UiElement) : appearedElements s s = [] := by
  unfold appearedElements
  apply List.filter_eq_nil_iff.mpr
  intro el hel
  have hm : elementFingerprint el ∈ s.map elementFingerprint :=
    List.mem_map_of_mem _ hel
  simp [hm]

theorem disappeared_self (s : List UiElement) : disappearedElements s s = [] := by
  unfold disappearedElements
  apply List.filter_eq_nil_iff.mpr
  intro el hel
  have hm : elementFingerprint el ∈ s.map elementFingerprint :=
    List.mem_map_of_mem _ hel
  simp [hm]

theorem diff_self (s : List UiElement) :
    (diffUiElements s s).screenChanged = false ∧
    (diffUiElements s s).appeared = [] ∧
    (diffUiElements s s).disappeared = [] := by
  unfold diffUiElements
  rw [appeared_self, disappeared_self]
  simp

/-! ## Claim theorems: differ -/

/-- C4 (counterexample): identity is NOT the exact triple.  `barEl1`
has resource id `a|b`, empty text and class `c`; `barEl2` has resource
id `a`, text `b|` and class `c`.  Their triples differ, so under the
claim's triple identity `barEl2` appears, yet both concatenate to the
fingerprint string `a|b||c`, so the code reports nothing appeared and
`screenChanged = false` while the claim's formula demands `true`. -/
theorem claim_C4_counterexample :
    appearedElements [barEl1] [barEl2] = [] ∧
    tripleAppeared [barEl1] [barEl2] = [barEl2] ∧
    (diffUiElements [barEl1] [barEl2]).appeared = [] ∧
    (diffUiElements [barEl1] [barEl2]).screenChanged = false ∧
    tripleScreenChanged [barEl1] [barEl2] = true := by decide

/-- C4 (amended): `diff` identifies elements by the concatenated string
`resourceId|text|className`.  When no identity field of any involved
element contains `|`, this coincides with the claim's exact-triple
identity: appeared/disappeared are exactly the triple-based lists and
`screenChanged` equals the claim's churn formula over triples (ratio
exceeding 0.6, empty union giving false).  Unconditionally,
`diff(seq, seq)` yields empty appeared/disappeared lists and
`screenChanged = false`, and the empty union gives
`screenChanged = false`. -/
theorem claim_C4 :
    (∀ (b a : List UiElement), (∀ x ∈ b, barFreeP x) → (∀ x ∈ a, barFreeP x) →
      appearedElements b a = tripleAppeared b a ∧
      disappearedElements b a = tripleDisappeared b a ∧
      (diffUiElements b a).screenChanged = tripleScreenChanged b a) ∧
    (∀ s : List UiElement, (diffUiElements s s).screenChanged = false ∧
      (diffUiElements s s).appeared = [] ∧
      (diffUiElements s s).disappeared = []) ∧
    (diffUiElements [] []).screenChanged = false := by
  refine ⟨?_, diff_self, by decide⟩
  intro b a hb ha
  exact ⟨appeared_eq_triple b a hb ha, disappeared_eq_triple b a hb ha,
    screenChanged_eq_triple b a hb ha⟩

/-- C4 (witness): the triple correspondence instantiated on two
bar-free one-element screens, and self-diff on a concrete screen. -/
theorem claim_C4_witness :
    (appearedElements [plainEl1] [plainEl2] = tripleAppeared [plainEl1] [plainEl2] ∧
     disappearedElements [plainEl1] [plainEl2] =
       tripleDisappeared [plainEl1] [plainEl2] ∧
     (diffUiElements [plainEl1] [plainEl2]).screenChanged =
       tripleScreenChanged [plainEl1] [plainEl2]) ∧
    ((diffUiElements [plainEl1] [plainEl1]).screenChanged = false ∧
     (diffUiElements [plainEl1] [plainEl1]).appeared = [] ∧
     (diffUiElements [plainEl1] [plainEl1]).disappeared = []) :=
  ⟨claim_C4.1 [plainEl1] [plainEl2] (by decide) (by decide),
   claim_C4.2.1 [plainEl1]⟩

/-! ## Lemmas about the parsers -/

/-- The derived-field invariant of the data model: center coordinates
are the floored midpoints of the bounds and width/height their
differences. -/
def derivedOk (el : UiElement) : Prop :=
  el.centerX = (el.bounds.x1 + el.bounds.x2).fdiv 2 ∧
  el.centerY = (el.bounds.y1 + el.bounds.y2).fdiv 2 ∧
  el.width = el.bounds.x2 - el.bounds.x1 ∧
  el.height = el.bounds.y2 - el.bounds.y1

theorem ofNat_fdiv_two (m : Nat) :
    ((m / 2 : Nat) : Int) = (m : Int).fdiv 2 := by
  simpa using Int.ofNat_fdiv m 2

theorem mkNodeElement_derived (idx : Nat) (n : List Char) (x1 y1 x2 y2 : Nat) :
    derivedOk (mkNodeElement idx n x1 y1 x2 y2) := by
  unfold mkNodeElement derivedOk
  dsimp only
  refine ⟨?_, ?_, rfl, rfl⟩
  · rw [← Int.natCast_add]; exact ofNat_fdiv_two _
  · rw [← Int.natCast_add]; exact ofNat_fdiv_two _

theorem buildElements_derived : ∀ (ns : List (List Char)) (i : Nat)
    (el : UiElement), el ∈ buildElements ns i → derivedOk el := by
  intro ns
  induction ns with
  | nil => intro i el h; simp [buildElements] at h
  | cons n ns ih =>
    intro i el h
    simp only [buildElements] at h
    cases hm : matchBounds n with
    | none => rw [hm] at h; exact ih _ el h
    | some b =>
      obtain ⟨x1, y1, x2, y2⟩ := b
      rw [hm] at h
      rcases List.mem_cons.mp h with h' | h'
      · rw [h']; exact mkNodeElement_derived i n x1 y1 x2 y2
      · exact ih _ el h'

theorem mkDesktopCore_derived (idx : Nat) (rid cls txt : String)
    (x y w h : Nat) (b1 b2 b3 b4 b5 b6 b7 : Bool) :
    derivedOk (mkDesktopCore idx rid cls txt x y w h b1 b2 b3 b4 b5 b6 b7) := by
  unfold mkDesktopCore derivedOk
  dsimp only
  refine ⟨?_, ?_, ?_, ?_⟩
  · rw [← Int.natCast_add, ← ofNat_fdiv_two]
    congr 1
    omega
  · rw [← Int.natCast_add, ← ofNat_fdiv_two]
    congr 1
    omega
  · omega
  · omega

theorem mkDesktopElement_derived (i : Nat) (t : List Char) :
    derivedOk (mkDesktopElement i t) := by
  unfold mkDesktopElement
  dsimp only
  apply mkDesktopCore_derived

theorem processLine_some {i : Nat} {l : List Char} {el : UiElement}
    (h : processLine i l = some el) : el = mkDesktopElement i (trimL l) := by
  unfold processLine at h
  dsimp only at h
  split_ifs at h with h1 h2 h3
  simp only [Option.some.injEq] at h
  exact h.symm

theorem buildDesktop_derived : ∀ (ls : List (List Char)) (i : Nat)
    (el : UiElement), el ∈ buildDesktop ls i → derivedOk el := by
  intro ls
  induction ls with
  | nil => intro i el h; simp [buildDesktop] at h
  | cons l ls ih =>
    intro i el h
    simp only [buildDesktop] at h
    cases hp : processLine i l with
    | none => rw [hp] at h; exact ih _ el h
    | some e =>
      rw [hp] at h
      rcases List.mem_cons.mp h with h' | h'
      · rw [h']
        have he : e = mkDesktopElement i (trimL l) := processLine_some hp
        rw [he]
        exact mkDesktopElement_derived i (trimL l)
      · exact ih _ el h'

theorem buildElements_index : ∀ (ns : List (List Char)) (i : Nat),
    (buildElements ns i).map UiElement.index =
      List.range' i (buildElements ns i).length := by
  intro ns
  induction ns with
  | nil => intro i; rfl
  | cons n ns ih =>
    intro i
    simp only [buildElements]
    cases hm : matchBounds n with
    | none => exact ih i
    | some b =>
      obtain ⟨x1, y1, x2, y2⟩ := b
      simp only [List.map_cons, List.length_cons, ih (i + 1)]
      rw [List.range'_succ]
      rfl

/-! ## Claim theorems: parsers -/

def skipXml : String :=
  "<node bounds=\"[1,2][3,4]\"/><node text=\"broken\"/><node bounds=\"[7,8][9,9]\"/>"

/-- C5: every element produced by either parser satisfies the
derived-field invariant (centers are floored midpoints of the bounds,
width/height their differences), and the spec's Login node parses to
centerX 540, centerY 850, width 880, height 100. -/
theorem claim_C5 :
    (∀ (xml : String) (el : UiElement), el ∈ parseUiHierarchy xml → derivedOk el) ∧
    (∀ (t : String) (el : UiElement),
      el ∈ desktopHierarchyToUiElements t → derivedOk el) ∧
    (parseUiHierarchy loginXml).map
      (fun el => (el.centerX, el.centerY, el.width, el.height)) =
      [(540, 850, 880, 100)] ∧
    (parseUiHierarchy loginXml).map (fun el => el.text) = ["Login"] := by
  refine ⟨?_, ?_, by decide, by decide⟩
  · intro xml el h
    exact buildElements_derived _ 0 el h
  · intro t el h
    exact buildDesktop_derived _ 0 el h

/-- C5 (witness): the invariant instantiated on the parsed Login element
and on a parsed desktop line. -/
theorem claim_C5_witness : derivedOk parsedLoginEl ∧ derivedOk parsedDeskEl :=
  ⟨claim_C5.1 loginXml parsedLoginEl (by decide),
   claim_C5.2.1 deskLine parsedDeskEl (by decide)⟩

/-- C6: `parseUiHierarchy` is total by construction; empty and
node-free input produce the empty sequence; emitted indices are exactly
`0, 1, 2, ...` in emission order; and a node without a parseable bounds
attribute is skipped while the remaining nodes still parse (the middle
node below is dropped and the two others get indices 0 and 1). -/
theorem claim_C6 :
    parseUiHierarchy "" = [] ∧
    parseUiHierarchy "plain text, no nodes at all" = [] ∧
    (∀ xml : String, (parseUiHierarchy xml).map UiElement.index =
      List.range (parseUiHierarchy xml).length) ∧
    (parseUiHierarchy skipXml).map (fun el => (el.index, el.bounds.x1)) =
      [(0, 1), (1, 7)] := by
  refine ⟨by decide, by decide, ?_, by decide⟩
  intro xml
  rw [List.range_eq_range']
  exact buildElements_index _ 0

def noSignalLine : List Char := "1234 just some prose, no signals".data

def noSizeLine : List Char := "  <Label> text=\"Hi\" @ (10, 20)".data

/-- C7: a desktop line with no class tag, no text attribute and no
coordinate marker emits nothing, and an emitted line without a `[WxH]`
size marker defaults to width 100 and height 40 (matching is performed
on the trimmed line, as in the source). -/
theorem claim_C7 :
    (∀ (l : List Char) (i : Nat),
      classMatchScan (trimL l) = none →
      attrMatchScan "text=\"".data (trimL l) = none →
      coordMatchScan (trimL l) = none →
      processLine i l = none) ∧
    (∀ (l : List Char) (i : Nat) (el : UiElement),
      processLine i l = some el → sizeMatchScan (trimL l) = none →
      el.width = 100 ∧ el.height = 40) := by
  constructor
  · intro l i h1 h2 h3
    unfold processLine
    dsimp only
    split_ifs with g1 g2 g3
    · rfl
    · rfl
    · rfl
    · simp [h1, h2, h3] at g3
  · intro l i el h hsz
    have he := processLine_some h
    subst he
    unfold mkDesktopElement
    dsimp only
    rw [hsz]
    unfold mkDesktopCore
    dsimp only
    exact ⟨rfl, rfl⟩

/-- C7 (witness): a prose-only line emits nothing; a sizeless label line
takes the 100×40 default. -/
theorem claim_C7_witness :
    processLine 0 noSignalLine = none ∧
    ((mkDesktopElement 0 (trimL noSizeLine)).width = 100 ∧
      (mkDesktopElement 0 (trimL noSizeLine)).height = 40) :=
  ⟨claim_C7.1 noSignalLine 0 (by decide) (by decide) (by decide),
   claim_C7.2 noSizeLine 0 (mkDesktopElement 0 (trimL noSizeLine))
     (by decide) (by decide)⟩

/-! ## Claim theorems: classifier and query engine -/

/-- C8: `analyzeScreen` on the empty sequence (with no activity hint)
returns the analysis with empty groups, no title/dialog/navigation and
the literal summary "Empty screen"; being a total function, it cannot
raise. -/
theorem claim_C8 :
    analyzeScreen [] none =
      { activity := none, screenTitle := none, hasDialog := none,
        dialogTitle := none, navigationState := none, buttons := [],
        inputs := [], texts := [], scrollable := [],
        summary := "Empty screen" } := by decide

/-- The claim's "empty string behaves like an omitted criterion"
normalization: empty-string text/resourceId/className criteria are
replaced by `none`. -/
def normalizeCriteria (c : FindCriteria) : FindCriteria :=
  { text := match c.text with
      | some t => if t.isEmpty then none else some t
      | none => none
    resourceId := match c.resourceId with
      | some r => if r.isEmpty then none else some r
      | none => none
    className := match c.className with
      | some s => if s.isEmpty then none else some s
      | none => none
    clickable := c.clickable
    enabled := c.enabled
    visible := c.visible }

theorem textPass_norm (o : Option String) (el : UiElement) :
    textPass (match o with
      | some t => if t.isEmpty then none else some t
      | none => none) el = textPass o el := by
  cases o with
  | none => rfl
  | some t => cases ht : t.isEmpty <;> simp [textPass, ht]

theorem ridPass_norm (o : Option String) (el : UiElement) :
    ridPass (match o with
      | some t => if t.isEmpty then none else some t
      | none => none) el = ridPass o el := by
  cases o with
  | none => rfl
  | some t => cases ht : t.isEmpty <;> simp [ridPass, ht]

theorem classPass_norm (o : Option String) (el : UiElement) :
    classPass (match o with
      | some t => if t.isEmpty then none else some t
      | none => none) el = classPass o el := by
  cases o with
  | none => rfl
  | some t => cases ht : t.isEmpty <;> simp [classPass, ht]

/-- C10: an empty-string text/resourceId/className criterion filters
exactly like an omitted one (normalizing such criteria to `none` never
changes the result, and `{text: ""}` returns the input unchanged),
whereas explicitly supplied `clickable: false` and `enabled: false` are
applied as real constraints. -/
theorem claim_C10 :
    (∀ (els : List UiElement) (c : FindCriteria),
      findElements els c = findElements els (normalizeCriteria c)) ∧
    (∀ els : List UiElement, findElements els { text := some "" } = els) ∧
    (∀ els : List UiElement, findElements els { clickable := some false } =
      els.filter fun el => !el.clickable) ∧
    (∀ els : List UiElement, findElements els { enabled := some false } =
      els.filter fun el => !el.enabled) := by
  refine ⟨?_, ?_, ?_, ?_⟩
  · intro els c
    unfold findElements normalizeCriteria
    apply (List.filter_congr ?_).symm
    intro el _
    dsimp only
    rw [textPass_norm, ridPass_norm, classPass_norm]
  · intro els
    unfold findElements
    apply List.filter_eq_self.mpr
    intro el _
    rfl
  · intro els
    unfold findElements
    apply List.filter_congr
    intro el _
    simp [textPass, ridPass, classPass, clickPass, enabledPass, visiblePass]
  · intro els
    unfold findElements
    apply List.filter_congr
    intro el _
    simp [textPass, ridPass, classPass, clickPass, enabledPass, visiblePass]

end UiCore
